import Mathlib

/-!
# Verification of `extractEmbedFilePDF`

A shallow embedding of the core of the `extractEmbedFilePDF` Rust crate
(`src/analyzer.rs`, `src/validator.rs`, `src/embedded.rs`, `src/lib.rs`)
together with theorems settling the specification claims about it.

The low-level PDF object graph (the `lopdf` crate) is an external
collaborator: we model its observable interface — an object store keyed by
object ids, a trailer dictionary, the page-id list produced by `get_pages`,
and per-stream decompression results — as plain data, and translate the
crate's own functions faithfully from the Rust source.  Byte strings that
the Rust code immediately converts with `String::from_utf8_lossy` are
modelled as already-decoded `String`s where only the text matters; stream
payloads, whose byte length matters, are modelled as `List Nat`.

Recursion over the object graph (`walk_name_tree`) is not structurally
terminating — the Rust function has no cycle guard — so it is embedded with
a fuel parameter; `none` means the fuel ran out, and divergence of the Rust
original corresponds to the result being `none` for every fuel.
-/

namespace ExtractPdf

/-- Raw byte payload of a stream (`Vec<u8>` in Rust). -/
abbrev Bytes := List Nat

/-- `lopdf::ObjectId`: an (object number, generation) pair, compared by
identity. -/
structure ObjectId where
  num : Nat
  gen : Nat
deriving DecidableEq, Repr

/-- `lopdf::Object`, restricted to the variants the crate inspects.
A `stream` carries its dictionary, its raw content and, when decompression
would succeed, the decompressed bytes (`decompressed_content()` is external
collaborator behaviour, so its outcome is part of the document model). -/
inductive Object where
  | null
  | boolean (b : Bool)
  | integer (i : Int)
  | name (s : String)
  | string (s : String)
  | reference (id : ObjectId)
  | array (elems : List Object)
  | dict (entries : List (String × Object))
  | stream (sdict : List (String × Object)) (content : Bytes)
      (decompressed : Option Bytes)

/-- `lopdf::Dictionary`: an ordered key–value map, modelled as an
association list (keys are the ASCII byte-string keys such as `"Names"`). -/
abbrev Dict := List (String × Object)

/-- `Dictionary::get`: first entry with the given key. -/
def dictGet (d : Dict) (k : String) : Option Object :=
  (d.find? fun e => e.1 == k).map fun e => e.2

/-- `Object::as_dict` (Ok exactly on the dictionary variant). -/
def Object.asDict? : Object → Option Dict
  | .dict d => some d
  | _ => none

/-- `Object::as_array`. -/
def Object.asArray? : Object → Option (List Object)
  | .array xs => some xs
  | _ => none

/-- `Object::as_reference`. -/
def Object.asReference? : Object → Option ObjectId
  | .reference id => some id
  | _ => none

/-- `Object::as_str` followed by the crate's immediate
`String::from_utf8_lossy` (strings are modelled already decoded). -/
def Object.asString? : Object → Option String
  | .string s => some s
  | _ => none

/-- `Object::as_name`, likewise modelled as decoded text. -/
def Object.asName? : Object → Option String
  | .name s => some s
  | _ => none

/-- `Object::as_i64`. -/
def Object.asInt? : Object → Option Int
  | .integer i => some i
  | _ => none

/-- `Object::as_stream`: dictionary, raw content, decompression outcome. -/
def Object.asStream? : Object → Option (Dict × Bytes × Option Bytes)
  | .stream d c dec => some (d, c, dec)
  | _ => none

/-- The document model exposed by `lopdf::Document` to this crate:
the object store, the trailer dictionary, and the page-id list that
`get_pages().values()` yields (in ascending page-number order). -/
structure Document where
  objects : List (ObjectId × Object)
  trailer : Dict
  pages : List ObjectId

/-- `Document::get_object`: look the id up in the object store. -/
def Document.getObject (doc : Document) (id : ObjectId) : Option Object :=
  (doc.objects.find? fun e => e.1 == id).map fun e => e.2

/-- `Document::catalog`: resolve the trailer's `Root` reference to a
dictionary. -/
def Document.catalog (doc : Document) : Option Dict :=
  (dictGet doc.trailer "Root").bind fun v =>
    v.asReference?.bind fun id => (doc.getObject id).bind Object.asDict?

/-- `ExtractorConfig` (src/lib.rs). -/
structure ExtractorConfig where
  strict_pdfa3_validation : Bool := false
  max_embedded_file_size : Option Nat := none
  extract_to_disk : Bool := false
  output_directory : Option String := none
deriving Repr

/-- `ExtractError` (src/lib.rs).  `ioError` and `parseError` carry their
payloads abstractly (the payloads come from external collaborators). -/
inductive ExtractError where
  | ioError
  | invalidPdf (msg : String)
  | notPdfA3 (msg : String)
  | noEmbeddedFiles
  | extractionError (name reason : String)
  | parseError
  | fileSizeExceeded
deriving DecidableEq, Repr

/-- `EmbeddedFileMetadata` (src/embedded.rs). -/
structure EmbeddedFileMetadata where
  mime_type : Option String := none
  description : Option String := none
  modification_date : Option String := none
  creation_date : Option String := none
  size : Option Int := none
  checksum : Option String := none
deriving DecidableEq, Repr

/-- `EmbeddedFile` (src/embedded.rs). -/
structure EmbeddedFile where
  filename : String
  data : Bytes
  metadata : EmbeddedFileMetadata
deriving DecidableEq, Repr

/-- Decidable equality for `Except` results, so concrete runs of the
embedded functions can be checked by `decide`. -/
instance {ε α : Type} [DecidableEq ε] [DecidableEq α] : DecidableEq (Except ε α)
  | .ok a, .ok b =>
    if h : a = b then .isTrue (h ▸ rfl) else .isFalse fun hh => h (Except.ok.inj hh)
  | .ok _, .error _ => .isFalse fun h => Except.noConfusion h
  | .error _, .ok _ => .isFalse fun h => Except.noConfusion h
  | .error e, .error f =>
    if h : e = f then .isTrue (h ▸ rfl) else .isFalse fun hh => h (Except.error.inj hh)

/-- Rust `str::contains` with a string pattern: substring containment. -/
def strContains (hay pat : String) : Bool :=
  hay.toList.tails.any fun t => pat.toList.isPrefixOf t

/-! ## Structural validator (src/validator.rs, `validate_pdf_structure`) -/

/-- `PdfValidator::validate_pdf_structure`.  The `{e}` detail that lopdf
appends to the catalog message is external-collaborator text and is not
modelled. -/
def validate_pdf_structure (doc : Document) : Except ExtractError Bool :=
  match doc.catalog with
  | none => .error (.invalidPdf "missing or invalid catalog")
  | some _ =>
    if doc.pages.isEmpty then
      .error (.invalidPdf "document has no pages")
    else if doc.trailer.isEmpty then
      .error (.invalidPdf "missing trailer dictionary")
    else
      .ok true

/-! ## PDF/A-3 conformance detector (src/validator.rs) -/

/-- `String::from_utf8_lossy`, modelled on the ASCII fragment the XMP
patterns live in: bytes below `0x80` decode to their character, anything
else to the replacement character `U+FFFD` (multi-byte UTF-8 sequences are
not modelled; no claim depends on them). -/
def utf8Lossy (bs : Bytes) : String :=
  ⟨bs.map fun b => if b < 0x80 then Char.ofNat b else '�'⟩

/-- `PdfValidator::read_xmp_metadata`: catalog → `/Metadata` reference →
stream → decompressed bytes → lossily decoded text. -/
def read_xmp_metadata (doc : Document) : Except ExtractError String :=
  match doc.catalog with
  | none => .error (.notPdfA3 "cannot read catalog")
  | some catalog =>
  match dictGet catalog "Metadata" with
  | none => .error (.notPdfA3 "catalog has no /Metadata entry")
  | some metaObj =>
  match metaObj.asReference? with
  | none => .error (.notPdfA3 "/Metadata entry is not an indirect reference")
  | some metaId =>
  match doc.getObject metaId with
  | none => .error (.notPdfA3 "cannot resolve /Metadata object")
  | some metaObject =>
  match metaObject.asStream? with
  | none => .error (.notPdfA3 "/Metadata object is not a stream")
  | some (_, _, dec) =>
  match dec with
  | none => .error (.notPdfA3 "cannot decompress /Metadata stream")
  | some bytes => .ok (utf8Lossy bytes)

/-- The attribute-form pattern `pdfaid:part="p"`. -/
def partAttr (p : String) : String := "pdfaid:part=\"" ++ p ++ "\""

/-- The element-form pattern `<pdfaid:part>p</pdfaid:part>`. -/
def partElem (p : String) : String := "<pdfaid:part>" ++ p ++ "</pdfaid:part>"

/-- The attribute-form pattern `pdfaid:conformance="l"`. -/
def confAttr (l : String) : String := "pdfaid:conformance=\"" ++ l ++ "\""

/-- The element-form pattern `<pdfaid:conformance>l</pdfaid:conformance>`. -/
def confElem (l : String) : String :=
  "<pdfaid:conformance>" ++ l ++ "</pdfaid:conformance>"

/-- The XMP text declares part `p` in either serialisation form. -/
def declaresPart (xmp p : String) : Bool :=
  strContains xmp (partAttr p) || strContains xmp (partElem p)

/-- The XMP text declares conformance level `l` in either form. -/
def declaresLevel (xmp l : String) : Bool :=
  strContains xmp (confAttr l) || strContains xmp (confElem l)

/-- `PdfValidator::xmp_declares_pdfa3`. -/
def xmp_declares_pdfa3 (xmp : String) : Bool :=
  let has_part3 := strContains xmp (partAttr "3") || strContains xmp (partElem "3")
  if !has_part3 then false
  else
    ["A", "B", "U"].any fun level =>
      strContains xmp (confAttr level) || strContains xmp (confElem level)

/-- `PdfValidator::validate_pdfa3`. -/
def validate_pdfa3 (doc : Document) (config : ExtractorConfig) :
    Except ExtractError Bool :=
  match read_xmp_metadata doc with
  | .error e => .error e
  | .ok xmp =>
    let is_pdfa3 := xmp_declares_pdfa3 xmp
    if config.strict_pdfa3_validation && !is_pdfa3 then
      .error (.notPdfA3 "document XMP does not declare PDF/A-3 conformance")
    else
      .ok is_pdfa3

/-- `PdfValidator::extract_conformance_level`. -/
def extract_conformance_level (xmp : String) : Option String :=
  let part? : Option String :=
    if strContains xmp (partAttr "3") || strContains xmp (partElem "3") then
      some "3"
    else if strContains xmp (partAttr "2") || strContains xmp (partElem "2") then
      some "2"
    else if strContains xmp (partAttr "1") || strContains xmp (partElem "1") then
      some "1"
    else
      none
  match part? with
  | none => none
  | some part =>
    (["A", "B", "U"].find? fun level =>
        strContains xmp (confAttr level) || strContains xmp (confElem level)
      ).map fun level => "PDF/A-" ++ part ++ level

/-- `PdfValidator::conformance_level` / `PdfAnalyzer::conformance_level`. -/
def conformance_level (doc : Document) : Option String :=
  match read_xmp_metadata doc with
  | .error _ => none
  | .ok xmp => extract_conformance_level xmp

/-! ## Embedded-file discovery (src/analyzer.rs) -/

/-- The leaf loop of `walk_name_tree` (and of the inline `/EmbeddedFiles`
branch of `collect_file_specs`): scan `[name₀, ref₀, name₁, ref₁, …]` two
slots at a time (`while i + 1 < arr.len() { …; i += 2 }`), keeping a pair
only when the name slot is a string and the value slot is a reference. -/
def leafPairs : List Object → List (String × ObjectId)
  | nameObj :: valObj :: rest =>
    (match nameObj.asString?, valObj.asReference? with
     | some n, some id => [(n, id)]
     | _, _ => []) ++ leafPairs rest
  | _ => []

/-- The `for kid in kids` loop of `walk_name_tree`: walk each kid that is a
reference, in order, concatenating the results.  `walk` is the recursive
call at the current fuel. -/
def walkKidsWith (walk : ObjectId → Option (List (String × ObjectId))) :
    List Object → Option (List (String × ObjectId))
  | [] => some []
  | kid :: rest =>
    match kid.asReference? with
    | none => walkKidsWith walk rest
    | some kid_id =>
      (walk kid_id).bind fun a =>
        (walkKidsWith walk rest).map fun b => a ++ b

/-- `PdfAnalyzer::walk_name_tree`.  The Rust function recurses over the
`/Kids` reference graph with no cycle or depth guard, so the embedding is
fuel-indexed: `none` means the fuel ran out, and a document on which the
result is `none` for every fuel is one on which the Rust original never
returns. -/
def walk_name_tree (doc : Document) : Nat → ObjectId → Option (List (String × ObjectId))
  | 0, _ => none
  | fuel + 1, node_id =>
    match (doc.getObject node_id).bind Object.asDict? with
    | none => some []
    | some node_dict =>
      let leaf :=
        match (dictGet node_dict "Names").bind Object.asArray? with
        | some arr => leafPairs arr
        | none => []
      match (dictGet node_dict "Kids").bind Object.asArray? with
      | none => some leaf
      | some kids =>
        (walkKidsWith (walk_name_tree doc fuel) kids).map fun rest => leaf ++ rest

/-- The `[b"Contents", b"T"]` / `[b"UF", b"F"]` lookup loop shared by
`annotation_name` and `best_filename`: first key whose value is a
non-empty string wins. -/
def firstNonEmptyStr (d : Dict) : List String → Option String
  | [] => none
  | k :: rest =>
    match (dictGet d k).bind Object.asString? with
    | some s => if s.isEmpty then firstNonEmptyStr d rest else some s
    | none => firstNonEmptyStr d rest

/-- `PdfAnalyzer::annotation_name`. -/
def annotation_name (d : Dict) : String :=
  (firstNonEmptyStr d ["Contents", "T"]).getD "attachment"

/-- `PdfAnalyzer::best_filename`. -/
def best_filename (spec_dict : Dict) (fallback : String) : String :=
  (firstNonEmptyStr spec_dict ["UF", "F"]).getD fallback

/-- The body of the annotation loop in `collect_file_specs`: admit an
annotation only when it is a reference to a dictionary whose `/Subtype` is
`FileAttachment` and whose `/FS` entry is a reference. -/
def fileAttachmentSpec (doc : Document) (item : Object) : Option (String × ObjectId) :=
  match item.asReference? with
  | none => none
  | some annot_id =>
    match (doc.getObject annot_id).bind Object.asDict? with
    | none => none
    | some adict =>
      match (dictGet adict "Subtype").bind Object.asName? with
      | none => none
      | some subtype_name =>
        if subtype_name = "FileAttachment" then
          match (dictGet adict "FS").bind Object.asReference? with
          | none => none
          | some fs_id => some (annotation_name adict, fs_id)
        else none

/-- The per-page part of `collect_file_specs` (source 2): resolve the
page's `/Annots` value — inline array or reference — and scan it. -/
def pageFileSpecs (doc : Document) (page_id : ObjectId) : List (String × ObjectId) :=
  match (doc.getObject page_id).bind Object.asDict? with
  | none => []
  | some page_dict =>
    match dictGet page_dict "Annots" with
    | none => []
    | some annots_val =>
      let arr? :=
        match annots_val.asReference? with
        | some id => (doc.getObject id).bind Object.asArray?
        | none => annots_val.asArray?
      match arr? with
      | none => []
      | some arr => arr.filterMap (fileAttachmentSpec doc)

/-- The name-tree part of `collect_file_specs` (source 1): catalog →
`/Names` (inline or reference) → `/EmbeddedFiles`, walking the tree when it
is a reference and scanning the inline `/Names` array otherwise.  Every
failure along the way contributes an empty list, never an error. -/
def namesTreeSpecs (doc : Document) (fuel : Nat) : Option (List (String × ObjectId)) :=
  match doc.catalog with
  | none => some []
  | some catalog =>
  match dictGet catalog "Names" with
  | none => some []
  | some names_val =>
  let names_dict :=
    match names_val.asReference? with
    | some id => (doc.getObject id).bind Object.asDict?
    | none => names_val.asDict?
  match names_dict with
  | none => some []
  | some names_dict =>
  match dictGet names_dict "EmbeddedFiles" with
  | none => some []
  | some ef_val =>
  match ef_val.asReference? with
  | some ef_id => walk_name_tree doc fuel ef_id
  | none =>
    match ef_val.asDict? with
    | none => some []
    | some ef_dict =>
      match (dictGet ef_dict "Names").bind Object.asArray? with
      | none => some []
      | some names_array => some (leafPairs names_array)

/-- `PdfAnalyzer::collect_file_specs`: name-tree specs first, then the
page-annotation specs in page order.  The Rust function always returns
`Ok`; the outer `Option` is only the fuel of the name-tree walk. -/
def collect_file_specs (doc : Document) (fuel : Nat) :
    Option (List (String × ObjectId)) :=
  (namesTreeSpecs doc fuel).map fun tree =>
    tree ++ (doc.pages.map (pageFileSpecs doc)).flatten

/-- `PdfAnalyzer::has_embedded_files`. -/
def has_embedded_files (doc : Document) (fuel : Nat) : Option Bool :=
  (collect_file_specs doc fuel).map fun specs => !specs.isEmpty

/-- `PdfAnalyzer::count_embedded_files`. -/
def count_embedded_files (doc : Document) (fuel : Nat) : Option Nat :=
  (collect_file_specs doc fuel).map fun specs => specs.length

/-! ## File-specification resolution (src/analyzer.rs) -/

/-- Lift an optional lookup into `Except`, with the error the Rust code
attaches at that point. -/
def orErr (o : Option α) (e : ExtractError) : Except ExtractError α :=
  match o with
  | some a => .ok a
  | none => .error e

/-- Lowercase hex encoding (`hex_encode` in src/analyzer.rs).  The checksum
bytes reach it through `as_str`, which this model exposes as decoded text,
so the encoding is applied to the text's code points. -/
def hex_encode (s : String) : String :=
  ⟨s.toList.flatMap fun c =>
    let b := c.toNat
    let digit := fun n => if n < 10 then Char.ofNat (48 + n) else Char.ofNat (87 + n)
    [digit (b / 16 % 16), digit (b % 16)]⟩

/-- `PdfAnalyzer::read_metadata`: every field independently optional. -/
def read_metadata (spec_dict stream_dict : Dict) : EmbeddedFileMetadata :=
  { description := (dictGet spec_dict "Desc").bind Object.asString?
    mime_type := ((dictGet spec_dict "Subtype").bind Object.asName?).map fun s =>
      (s.replace "#" "").toLower
    modification_date :=
      ((dictGet stream_dict "Params").bind Object.asDict?).bind fun params =>
        (dictGet params "ModDate").bind Object.asString?
    creation_date :=
      ((dictGet stream_dict "Params").bind Object.asDict?).bind fun params =>
        (dictGet params "CreationDate").bind Object.asString?
    size :=
      ((dictGet stream_dict "Params").bind Object.asDict?).bind fun params =>
        (dictGet params "Size").bind Object.asInt?
    checksum :=
      (((dictGet stream_dict "Params").bind Object.asDict?).bind fun params =>
        (dictGet params "CheckSum").bind Object.asString?).map hex_encode }

/-- The `/EF` resolution step of `parse_file_spec`: normally an inline
dictionary, but a reference is also accepted. -/
def resolveEF (doc : Document) (name : String) (ef_val : Object) :
    Except ExtractError Dict :=
  match ef_val.asReference? with
  | some ef_id =>
    (orErr (doc.getObject ef_id) .parseError).bind fun o =>
      orErr o.asDict? (.extractionError name "/EF reference is not a dict")
  | none => orErr ef_val.asDict? (.extractionError name "/EF is not a dictionary")

/-- `PdfAnalyzer::parse_file_spec`: the `?`-chain of the Rust function as
nested matches.  Decompression failure falls back to the raw stream content
(`unwrap_or_else`), it never fails the resolve. -/
def parse_file_spec (doc : Document) (name : String) (spec_id : ObjectId) :
    Except ExtractError EmbeddedFile :=
  match doc.getObject spec_id with
  | none => .error .parseError
  | some spec_obj =>
  match spec_obj.asDict? with
  | none => .error (.extractionError name "file spec is not a dictionary")
  | some spec_dict =>
  match dictGet spec_dict "EF" with
  | none => .error (.extractionError name "missing /EF entry")
  | some ef_val =>
  match resolveEF doc name ef_val with
  | .error e => .error e
  | .ok ef_dict =>
  match (dictGet ef_dict "UF").orElse fun _ => dictGet ef_dict "F" with
  | none => .error (.extractionError name "/EF has neither /F nor /UF")
  | some stream_ref =>
  match stream_ref.asReference? with
  | none => .error (.extractionError name "/EF stream entry is not a reference")
  | some stream_id =>
  match doc.getObject stream_id with
  | none => .error .parseError
  | some stream_obj =>
  match stream_obj.asStream? with
  | none => .error (.extractionError name "embedded stream object is not a stream")
  | some s =>
    .ok { filename := best_filename spec_dict name
          data := s.2.2.getD s.2.1
          metadata := read_metadata spec_dict s.1 }

/-! ## Extraction orchestrator (src/analyzer.rs, `extract_embedded_files`) -/

/-- Does the resolved file trip the `max_embedded_file_size` guard? -/
def sizeExceeded (config : ExtractorConfig) (file : EmbeddedFile) : Bool :=
  match config.max_embedded_file_size with
  | some max => file.data.length > max
  | none => false

/-- The `for (name, spec_id) in specs` loop of `extract_embedded_files`:
a failed resolve is skipped (the warning is console output, not modelled),
an oversized resolved file aborts the whole loop with `FileSizeExceeded`,
and every surviving file is kept in order.  The optional disk write is a
filesystem side effect (external collaborator), modelled as succeeding. -/
def extractLoop (doc : Document) (config : ExtractorConfig) :
    List (String × ObjectId) → Except ExtractError (List EmbeddedFile)
  | [] => .ok []
  | (name, spec_id) :: rest =>
    match parse_file_spec doc name spec_id with
    | .error _ => extractLoop doc config rest
    | .ok file =>
      if sizeExceeded config file then
        .error .fileSizeExceeded
      else
        (extractLoop doc config rest).map fun results => file :: results

/-- `PdfAnalyzer::extract_embedded_files`.  The outer `Option` is the fuel
of the name-tree walk; the Rust behaviour is the inner `Except`. -/
def extract_embedded_files (doc : Document) (config : ExtractorConfig)
    (fuel : Nat) : Option (Except ExtractError (List EmbeddedFile)) :=
  (collect_file_specs doc fuel).map fun specs =>
    if specs.isEmpty then
      .error .noEmbeddedFiles
    else
      match extractLoop doc config specs with
      | .error e => .error e
      | .ok results =>
        if results.isEmpty then .error .noEmbeddedFiles else .ok results

/-! ## General lemmas about the extraction loop -/

/-- The files of a spec list that resolve successfully, in list order. -/
def resolvedFiles (doc : Document) (specs : List (String × ObjectId)) :
    List EmbeddedFile :=
  specs.filterMap fun s => (parse_file_spec doc s.1 s.2).toOption

theorem resolvedFiles_nil (doc : Document) : resolvedFiles doc [] = [] := rfl

theorem resolvedFiles_cons (doc : Document) (s : String × ObjectId)
    (rest : List (String × ObjectId)) :
    resolvedFiles doc (s :: rest) =
      match (parse_file_spec doc s.1 s.2).toOption with
      | some f => f :: resolvedFiles doc rest
      | none => resolvedFiles doc rest := by
  simp only [resolvedFiles, List.filterMap_cons]
  cases (parse_file_spec doc s.1 s.2).toOption <;> rfl

/-- When no successfully resolved file trips the size guard, the loop keeps
exactly the resolved files, in order. -/
theorem extractLoop_ok_of_all_within (doc : Document) (config : ExtractorConfig) :
    ∀ specs : List (String × ObjectId),
      (∀ f ∈ resolvedFiles doc specs, sizeExceeded config f = false) →
      extractLoop doc config specs = .ok (resolvedFiles doc specs)
  | [], _ => rfl
  | (name, sid) :: rest, h => by
    have hc := resolvedFiles_cons doc (name, sid) rest
    cases hp : parse_file_spec doc name sid with
    | error e =>
      simp only [hp, Except.toOption] at hc
      rw [extractLoop, hp, hc]
      exact extractLoop_ok_of_all_within doc config rest (by rw [hc] at h; exact h)
    | ok f =>
      simp only [hp, Except.toOption] at hc
      have hmem : f ∈ resolvedFiles doc ((name, sid) :: rest) := by
        rw [hc]; exact List.mem_cons_self f _
      rw [extractLoop, hp]
      dsimp only
      rw [h f hmem, hc,
        extractLoop_ok_of_all_within doc config rest
          (fun g hg => h g (by rw [hc]; exact List.mem_cons_of_mem f hg))]
      rfl

/-- As soon as some successfully resolved file trips the size guard, the
whole loop aborts with `FileSizeExceeded`. -/
theorem extractLoop_error_of_exceeded (doc : Document) (config : ExtractorConfig) :
    ∀ specs : List (String × ObjectId),
      (∃ f ∈ resolvedFiles doc specs, sizeExceeded config f = true) →
      extractLoop doc config specs = .error .fileSizeExceeded
  | [], h => by simp [resolvedFiles_nil] at h
  | (name, sid) :: rest, h => by
    have hc := resolvedFiles_cons doc (name, sid) rest
    cases hp : parse_file_spec doc name sid with
    | error e =>
      simp only [hp, Except.toOption] at hc
      rw [extractLoop, hp]
      exact extractLoop_error_of_exceeded doc config rest (by rw [hc] at h; exact h)
    | ok f =>
      simp only [hp, Except.toOption] at hc
      rw [extractLoop, hp]
      dsimp only
      by_cases hf : sizeExceeded config f = true
      · rw [hf]; rfl
      · rw [Bool.not_eq_true] at hf
        rw [hf]
        have : ∃ g ∈ resolvedFiles doc rest, sizeExceeded config g = true := by
          rw [hc] at h
          obtain ⟨g, hg, hgs⟩ := h
          rcases List.mem_cons.mp hg with hgf | hgr
          · exact absurd hgs (by rw [hgf, hf]; exact Bool.false_ne_true)
          · exact ⟨g, hgr, hgs⟩
        rw [extractLoop_error_of_exceeded doc config rest this]
        rfl

/-- The loop returns either the resolved files (none oversized) or the
size-limit error (some resolved file oversized); nothing else. -/
theorem extractLoop_cases (doc : Document) (config : ExtractorConfig)
    (specs : List (String × ObjectId)) :
    (extractLoop doc config specs = .ok (resolvedFiles doc specs) ∧
       ∀ f ∈ resolvedFiles doc specs, sizeExceeded config f = false) ∨
    (extractLoop doc config specs = .error .fileSizeExceeded ∧
       ∃ f ∈ resolvedFiles doc specs, sizeExceeded config f = true) := by
  by_cases h : ∀ f ∈ resolvedFiles doc specs, sizeExceeded config f = false
  · exact Or.inl ⟨extractLoop_ok_of_all_within doc config specs h, h⟩
  · have : ∃ f ∈ resolvedFiles doc specs, sizeExceeded config f = true := by
      push_neg at h
      obtain ⟨f, hf, hfs⟩ := h
      exact ⟨f, hf, by simpa using hfs⟩
    exact Or.inr ⟨extractLoop_error_of_exceeded doc config specs this, this⟩

/-- Rewriting `extract_embedded_files` once the discovered spec list is
known and non-empty. -/
theorem extract_eq_loop (doc : Document) (config : ExtractorConfig)
    (fuel : Nat) (specs : List (String × ObjectId))
    (hspecs : collect_file_specs doc fuel = some specs)
    (hne : specs.isEmpty = false) :
    extract_embedded_files doc config fuel = some
      (match extractLoop doc config specs with
       | .error e => .error e
       | .ok results =>
         if results.isEmpty then .error .noEmbeddedFiles else .ok results) := by
  rw [extract_embedded_files, hspecs]
  dsimp only [Option.map]
  rw [hne]
  rfl

/-! ## Claim C1 -/

/-- Two-attachment document for claim C1's scenario: the first embedded
stream is 5 bytes, the second 20 bytes. -/
def docTwoFiles : Document :=
  { objects :=
      [ (⟨1,0⟩, .dict [("Names", .dict [("EmbeddedFiles", .dict [("Names",
          .array [.string "a", .reference ⟨10,0⟩,
                  .string "b", .reference ⟨11,0⟩])])])]),
        (⟨10,0⟩, .dict [("EF", .dict [("F", .reference ⟨20,0⟩)])]),
        (⟨11,0⟩, .dict [("EF", .dict [("F", .reference ⟨21,0⟩)])]),
        (⟨20,0⟩, .stream [] [1,2,3,4,5] (some [1,2,3,4,5])),
        (⟨21,0⟩, .stream [] []
          (some [1,2,3,4,5,6,7,8,9,10,11,12,13,14,15,16,17,18,19,20])) ],
    trailer := [("Root", .reference ⟨1,0⟩)],
    pages := [] }

/-- Configuration with a 10-byte embedded-file size limit. -/
def cfgLimit10 : ExtractorConfig := { max_embedded_file_size := some 10 }

/-- Claim C1: when `max_embedded_file_size = some limit` and any
successfully resolved file's data exceeds the limit, the entire
`extract_embedded_files` call fails with `FileSizeExceeded`; no `Ok` result
survives, so files already resolved and individually within the limit are
discarded. -/
theorem C1_size_limit_fail_fast (doc : Document) (config : ExtractorConfig)
    (fuel limit : Nat) (specs : List (String × ObjectId)) (f : EmbeddedFile)
    (hspecs : collect_file_specs doc fuel = some specs)
    (hlimit : config.max_embedded_file_size = some limit)
    (hf : f ∈ resolvedFiles doc specs)
    (hbig : limit < f.data.length) :
    extract_embedded_files doc config fuel = some (.error .fileSizeExceeded) := by
  have hexc : sizeExceeded config f = true := by
    simp [sizeExceeded, hlimit, hbig]
  have hloop := extractLoop_error_of_exceeded doc config specs ⟨f, hf, hexc⟩
  have hne : specs.isEmpty = false := by
    cases specs with
    | nil => simp [resolvedFiles_nil] at hf
    | cons s rest => rfl
  rw [extract_eq_loop doc config fuel specs hspecs hne, hloop]

/-- Claim C1 witness: with limit 10, a first attachment of 5 bytes and a
second of 20 bytes, the first resolves within the limit yet the whole call
fails with `FileSizeExceeded`. -/
theorem C1_size_limit_fail_fast_witness :
    (resolvedFiles docTwoFiles [("a", ⟨10,0⟩), ("b", ⟨11,0⟩)]).map
        (fun f => f.data.length) = [5, 20] ∧
    extract_embedded_files docTwoFiles cfgLimit10 1 =
      some (.error .fileSizeExceeded) :=
  ⟨by decide,
   C1_size_limit_fail_fast docTwoFiles cfgLimit10 1 10
     [("a", ⟨10,0⟩), ("b", ⟨11,0⟩)]
     ⟨"b", [1,2,3,4,5,6,7,8,9,10,11,12,13,14,15,16,17,18,19,20], {}⟩
     (by decide) rfl (by decide) (by decide)⟩

/-! ## Claim C2 -/

/-- Claim C2: `extract_embedded_files` returns `NoEmbeddedFiles` exactly
when discovery finds nothing or nothing resolves; an `Ok` result is
non-empty and is exactly the successfully resolved files, in order, with
failed entries absent. -/
theorem C2_no_embedded_files_iff (doc : Document) (config : ExtractorConfig)
    (fuel : Nat) (specs : List (String × ObjectId))
    (hspecs : collect_file_specs doc fuel = some specs) :
    (extract_embedded_files doc config fuel = some (.error .noEmbeddedFiles) ↔
       specs = [] ∨ resolvedFiles doc specs = []) ∧
    ∀ files, extract_embedded_files doc config fuel = some (.ok files) →
      files ≠ [] ∧ files = resolvedFiles doc specs := by
  by_cases hnil : specs = []
  · have hE : extract_embedded_files doc config fuel =
        some (.error .noEmbeddedFiles) := by
      subst hnil
      rw [extract_embedded_files, hspecs]
      rfl
    refine ⟨⟨fun _ => Or.inl hnil, fun _ => hE⟩, fun files hfk => ?_⟩
    rw [hE] at hfk
    exact absurd (Option.some.inj hfk) (fun h => Except.noConfusion h)
  · have hne : specs.isEmpty = false := by
      cases specs with
      | nil => exact absurd rfl hnil
      | cons a b => rfl
    rcases extractLoop_cases doc config specs with ⟨hok, _⟩ | ⟨herr, hex⟩
    · by_cases hre : resolvedFiles doc specs = []
      · have hE : extract_embedded_files doc config fuel =
            some (.error .noEmbeddedFiles) := by
          rw [extract_eq_loop doc config fuel specs hspecs hne, hok, hre]
          rfl
        refine ⟨⟨fun _ => Or.inr hre, fun _ => hE⟩, fun files hfk => ?_⟩
        rw [hE] at hfk
        exact absurd (Option.some.inj hfk) (fun h => Except.noConfusion h)
      · have hre' : (resolvedFiles doc specs).isEmpty = false := by
          cases hr : resolvedFiles doc specs with
          | nil => exact absurd hr hre
          | cons a b => rfl
        have hE : extract_embedded_files doc config fuel =
            some (.ok (resolvedFiles doc specs)) := by
          rw [extract_eq_loop doc config fuel specs hspecs hne, hok]
          dsimp only
          rw [hre']
          rfl
        refine ⟨⟨fun hcontra => ?_, fun hor => ?_⟩, fun files hfk => ?_⟩
        · rw [hE] at hcontra
          exact absurd (Option.some.inj hcontra) (fun h => Except.noConfusion h)
        · rcases hor with h1 | h2
          · exact absurd h1 hnil
          · exact absurd h2 hre
        · rw [hE] at hfk
          have hfe := Except.ok.inj (Option.some.inj hfk)
          exact ⟨by rw [← hfe]; exact hre, hfe.symm⟩
    · have hE : extract_embedded_files doc config fuel =
          some (.error .fileSizeExceeded) := by
        rw [extract_eq_loop doc config fuel specs hspecs hne, herr]
      refine ⟨⟨fun hcontra => ?_, fun hor => ?_⟩, fun files hfk => ?_⟩
      · rw [hE] at hcontra
        have := Except.error.inj (Option.some.inj hcontra)
        exact ExtractError.noConfusion this
      · obtain ⟨f, hfmem, _⟩ := hex
        rcases hor with h1 | h2
        · exact absurd h1 hnil
        · rw [h2] at hfmem; exact absurd hfmem (List.not_mem_nil f)
      · rw [hE] at hfk
        exact absurd (Option.some.inj hfk) (fun h => Except.noConfusion h)

/-- Document whose single discovered entry references a missing object, so
every discovered entry fails to resolve. -/
def docUnresolvable : Document :=
  { objects :=
      [ (⟨1,0⟩, .dict [("Names", .dict [("EmbeddedFiles", .dict [("Names",
          .array [.string "ghost", .reference ⟨10,0⟩])])])]) ],
    trailer := [("Root", .reference ⟨1,0⟩)],
    pages := [] }

/-- Claim C2 witness: a document with one discovered entry that fails to
resolve makes the whole call fail with `NoEmbeddedFiles`. -/
theorem C2_no_embedded_files_iff_witness :
    extract_embedded_files docUnresolvable {} 1 =
      some (.error .noEmbeddedFiles) :=
  (C2_no_embedded_files_iff docUnresolvable {} 1 [("ghost", ⟨10,0⟩)]
      (by decide)).1.mpr (Or.inr (by decide))

/-! ## Claim C3 -/

/-- The `/Kids` reference edges of a document: `(parent, kid)` for every
stored object whose dictionary has a `/Kids` array containing a reference
to the kid.  These are exactly the edges `walk_name_tree` recurses along. -/
def kidsEdges (doc : Document) : List (ObjectId × ObjectId) :=
  doc.objects.flatMap fun e =>
    match e.2.asDict? with
    | none => []
    | some d =>
      match (dictGet d "Kids").bind Object.asArray? with
      | none => []
      | some kids => (kids.filterMap Object.asReference?).map fun k => (e.1, k)

/-- A one-node name tree whose `/Kids` array references the node itself. -/
def docCyclic : Document :=
  { objects := [ (⟨1,0⟩, .dict [("Kids", .array [.reference ⟨1,0⟩])]) ],
    trailer := [], pages := [] }

/-- One unfolding step of the walk on the cyclic document. -/
theorem walk_docCyclic_succ (fuel : Nat) :
    walk_name_tree docCyclic (fuel + 1) ⟨1, 0⟩ =
      ((walk_name_tree docCyclic fuel ⟨1, 0⟩).bind fun a =>
          some (a ++ ([] : List (String × ObjectId)))).map
        fun rest => [] ++ rest := rfl

/-- On the cyclic document the walk exhausts any amount of fuel: the Rust
original never returns. -/
theorem walk_docCyclic_none : ∀ fuel, walk_name_tree docCyclic fuel ⟨1, 0⟩ = none
  | 0 => rfl
  | fuel + 1 => by
    rw [walk_docCyclic_succ, walk_docCyclic_none fuel]
    rfl

/-- Claim C3 counterexample: on a document whose name-tree node's `/Kids`
references the node itself, no amount of fuel makes `walk_name_tree`
return — the source has no visited-set or depth guard, so traversal does
not terminate on every document. -/
theorem C3_counterexample :
    ¬ ∃ fuel, (walk_name_tree docCyclic fuel ⟨1, 0⟩).isSome = true := by
  rintro ⟨fuel, h⟩
  rw [walk_docCyclic_none fuel] at h
  exact Bool.false_ne_true h

/-- An edge the walk recurses along is a `kidsEdges` entry. -/
theorem mem_kidsEdges (doc : Document) (node_id kid_id : ObjectId)
    (node_dict : Dict) (kids : List Object)
    (h1 : (doc.getObject node_id).bind Object.asDict? = some node_dict)
    (h2 : (dictGet node_dict "Kids").bind Object.asArray? = some kids)
    (hkid : Object.reference kid_id ∈ kids) :
    (node_id, kid_id) ∈ kidsEdges doc := by
  obtain ⟨obj, hobj, hdict⟩ := Option.bind_eq_some.mp h1
  obtain ⟨e, hfind⟩ := Option.map_eq_some'.mp hobj
  have hmem : e ∈ doc.objects := List.mem_of_find?_eq_some hfind.1
  have hfst : e.1 = node_id := by
    have := List.find?_some hfind.1
    exact eq_of_beq this
  have hsnd : e.2 = obj := hfind.2
  rw [kidsEdges, List.mem_flatMap]
  refine ⟨e, hmem, ?_⟩
  rw [hsnd, hdict]
  dsimp only
  rw [h2]
  dsimp only
  rw [List.mem_map]
  exact ⟨kid_id, List.mem_filterMap.mpr ⟨.reference kid_id, hkid, rfl⟩,
    by rw [hfst]⟩

/-- `as_reference` succeeds only on the reference variant. -/
theorem asReference_eq_some (o : Object) (i : ObjectId)
    (h : o.asReference? = some i) : o = .reference i := by
  cases o <;> simp_all [Object.asReference?]

/-- The kid loop returns a value when the walk returns a value on every
reference kid. -/
theorem walkKidsWith_isSome (w : ObjectId → Option (List (String × ObjectId))) :
    ∀ kids : List Object,
      (∀ kid_id, Object.reference kid_id ∈ kids → (w kid_id).isSome = true) →
      (walkKidsWith w kids).isSome = true
  | [], _ => rfl
  | kid :: rest, h => by
    rw [walkKidsWith]
    cases hr : kid.asReference? with
    | none =>
      exact walkKidsWith_isSome w rest fun kid_id hm =>
        h kid_id (List.mem_cons_of_mem kid hm)
    | some kid_id =>
      dsimp only
      have hkid : Object.reference kid_id ∈ kid :: rest := by
        rw [asReference_eq_some kid kid_id hr]
        exact List.mem_cons_self _ _
      obtain ⟨a, ha⟩ := Option.isSome_iff_exists.mp (h kid_id hkid)
      rw [ha]
      dsimp only [Option.bind]
      have hrest := walkKidsWith_isSome w rest fun i hm =>
        h i (List.mem_cons_of_mem kid hm)
      obtain ⟨b, hb⟩ := Option.isSome_iff_exists.mp hrest
      rw [hb]
      rfl

/-- Claim C3 (amended): the source walk has no visited-set or depth guard,
so it does not terminate on cyclic `/Kids` graphs (see the counterexample);
it does terminate on every document whose `/Kids` edges admit a strictly
decreasing rank — in particular on every acyclic name tree — with any fuel
exceeding the rank of the starting node. -/
theorem C3_acyclic_walk_terminates (doc : Document) (rank : ObjectId → Nat)
    (hrank : ∀ p ∈ kidsEdges doc, rank p.2 < rank p.1) :
    ∀ (fuel : Nat) (node_id : ObjectId), rank node_id < fuel →
      (walk_name_tree doc fuel node_id).isSome = true
  | 0, _, h => absurd h (Nat.not_lt_zero _)
  | fuel + 1, node_id, h => by
    rw [walk_name_tree]
    cases h1 : (doc.getObject node_id).bind Object.asDict? with
    | none => rfl
    | some node_dict =>
      dsimp only
      cases h2 : (dictGet node_dict "Kids").bind Object.asArray? with
      | none => rfl
      | some kids =>
        dsimp only
        have hkids : (walkKidsWith (walk_name_tree doc fuel) kids).isSome = true := by
          refine walkKidsWith_isSome _ kids fun kid_id hkid => ?_
          have hedge := mem_kidsEdges doc node_id kid_id node_dict kids h1 h2 hkid
          have hlt : rank kid_id < fuel :=
            Nat.lt_of_lt_of_le (hrank _ hedge) (Nat.lt_succ_iff.mp h)
          exact C3_acyclic_walk_terminates doc rank hrank fuel kid_id hlt
        obtain ⟨b, hb⟩ := Option.isSome_iff_exists.mp hkids
        rw [hb]
        rfl

/-- A two-node acyclic name tree: the root's kid is a leaf. -/
def docChain : Document :=
  { objects := [ (⟨1,0⟩, .dict [("Kids", .array [.reference ⟨2,0⟩])]),
                 (⟨2,0⟩, .dict [("Names",
                   .array [.string "n", .reference ⟨9,0⟩])]) ],
    trailer := [], pages := [] }

/-- Claim C3 witness: on the acyclic two-node tree, fuel 2 already
suffices for the walk to return. -/
theorem C3_acyclic_walk_terminates_witness :
    (walk_name_tree docChain 2 ⟨1, 0⟩).isSome = true :=
  C3_acyclic_walk_terminates docChain
    (fun id => if id.num = 1 then 1 else 0) (by decide) 2 ⟨1, 0⟩ (by decide)

/-! ## Claims C4 and C8: filenames -/

/-- The shared non-empty-string lookup loop only ever returns a non-empty
string. -/
theorem firstNonEmptyStr_ne_empty (d : Dict) :
    ∀ (keys : List String) (s : String), firstNonEmptyStr d keys = some s →
      s ≠ ""
  | [], s, h => Option.noConfusion h
  | k :: rest, s, h => by
    rw [firstNonEmptyStr] at h
    cases hv : (dictGet d k).bind Object.asString? with
    | none =>
      rw [hv] at h
      exact firstNonEmptyStr_ne_empty d rest s h
    | some v =>
      rw [hv] at h
      dsimp only at h
      by_cases he : v.isEmpty
      · rw [if_pos he] at h
        exact firstNonEmptyStr_ne_empty d rest s h
      · rw [if_neg he] at h
        rw [← Option.some.inj h]
        intro hc
        exact he (by rw [hc]; rfl)

/-- A successful resolve's filename is `best_filename` of the resolved
specification dictionary with the discovery name as fallback. -/
theorem parse_file_spec_filename (doc : Document) (name : String)
    (spec_id : ObjectId) (f : EmbeddedFile)
    (h : parse_file_spec doc name spec_id = .ok f) :
    ∃ spec_dict, (doc.getObject spec_id).bind Object.asDict? = some spec_dict ∧
      f.filename = best_filename spec_dict name := by
  rw [parse_file_spec] at h
  repeat' split at h
  all_goals try exact Except.noConfusion h
  rename_i b1 b2 hobj0 a1 specd hdic a4 a5 a6 a7 a8 a9 a10 a11 a12 a13 a14 a15
    a16 a17 a18 a19 a20 a21
  refine ⟨specd, ?_, ?_⟩
  · rw [hobj0]
    exact hdic
  · rw [← Except.ok.inj h]

/-- Document whose single name-tree entry has the empty string as its name
and whose file specification has no `/UF` or `/F` string. -/
def docEmptyName : Document :=
  { objects :=
      [ (⟨1,0⟩, .dict [("Names", .dict [("EmbeddedFiles", .dict [("Names",
          .array [.string "", .reference ⟨10,0⟩])])])]),
        (⟨10,0⟩, .dict [("EF", .dict [("F", .reference ⟨20,0⟩)])]),
        (⟨20,0⟩, .stream [] [7] (some [7])) ],
    trailer := [("Root", .reference ⟨1,0⟩)],
    pages := [] }

/-- Claim C4 counterexample: a name-tree entry whose tree name is the empty
string and whose specification has no `/UF`/`/F` strings extracts to an
`EmbeddedFile` whose `filename` IS empty — there is no literal default on
this path, so the claimed invariant fails. -/
theorem C4_counterexample :
    extract_embedded_files docEmptyName {} 1 =
        some (.ok [{ filename := "", data := [7], metadata := {} }]) ∧
    ({ filename := "", data := [7], metadata := {} } : EmbeddedFile).filename
        = "" :=
  ⟨by decide, rfl⟩

/-- Claim C4 (amended): a resolved file's filename falls back from
`/UF`/`/F` to the discovery name, so it is non-empty whenever the discovery
name is non-empty; annotation discovery names are never empty (literal
default `"attachment"`), but name-tree discovery names can be empty and are
used verbatim, so the filename of a name-tree entry can be empty. -/
theorem C4_filename_fallback :
    (∀ (d : Dict) (fb : String), fb ≠ "" → best_filename d fb ≠ "") ∧
    (∀ d : Dict, annotation_name d ≠ "") ∧
    (∀ (doc : Document) (name : String) (spec_id : ObjectId) (f : EmbeddedFile),
       parse_file_spec doc name spec_id = .ok f → name ≠ "" →
       f.filename ≠ "") := by
  have hbest : ∀ (d : Dict) (fb : String), fb ≠ "" → best_filename d fb ≠ "" := by
    intro d fb hfb
    rw [best_filename]
    cases hv : firstNonEmptyStr d ["UF", "F"] with
    | none => exact hfb
    | some s => exact firstNonEmptyStr_ne_empty d ["UF", "F"] s hv
  refine ⟨hbest, fun d => ?_, fun doc name spec_id f hok hname => ?_⟩
  · rw [annotation_name]
    cases hv : firstNonEmptyStr d ["Contents", "T"] with
    | none => decide
    | some s => exact firstNonEmptyStr_ne_empty d ["Contents", "T"] s hv
  · obtain ⟨spec_dict, _, hfn⟩ := parse_file_spec_filename doc name spec_id f hok
    rw [hfn]
    exact hbest spec_dict name hname

/-- Claim C4 witness: a concrete non-empty fallback gives a non-empty
best filename. -/
theorem C4_filename_fallback_witness :
    best_filename [("EF", .dict [])] "invoice.xml" ≠ "" :=
  C4_filename_fallback.1 [("EF", .dict [])] "invoice.xml" (by decide)

/-- Document with a file specification declaring both `UF="café.pdf"` and
`F="cafe.pdf"`. -/
def docCafe : Document :=
  { objects :=
      [ (⟨10,0⟩, .dict [("UF", .string "café.pdf"), ("F", .string "cafe.pdf"),
                        ("EF", .dict [("F", .reference ⟨20,0⟩)])]),
        (⟨20,0⟩, .stream [] [7] (some [7])) ],
    trailer := [],
    pages := [] }

/-- Claim C8: the resolved filename is chosen with priority `/UF`, then
`/F`, then the discovery name, first non-empty string winning; when both
`UF="café.pdf"` and `F="cafe.pdf"` are declared, the Unicode name wins. -/
theorem C8_filename_priority :
    (∀ (d : Dict) (fb uf : String),
       (dictGet d "UF").bind Object.asString? = some uf → uf ≠ "" →
       best_filename d fb = uf) ∧
    (∀ (d : Dict) (fb fs : String),
       ((dictGet d "UF").bind Object.asString? = none ∨
        (dictGet d "UF").bind Object.asString? = some "") →
       (dictGet d "F").bind Object.asString? = some fs → fs ≠ "" →
       best_filename d fb = fs) ∧
    (∀ (d : Dict) (fb : String),
       ((dictGet d "UF").bind Object.asString? = none ∨
        (dictGet d "UF").bind Object.asString? = some "") →
       ((dictGet d "F").bind Object.asString? = none ∨
        (dictGet d "F").bind Object.asString? = some "") →
       best_filename d fb = fb) ∧
    (∀ (doc : Document) (name : String) (spec_id : ObjectId)
       (spec_dict : Dict) (f : EmbeddedFile),
       (doc.getObject spec_id).bind Object.asDict? = some spec_dict →
       parse_file_spec doc name spec_id = .ok f →
       f.filename = best_filename spec_dict name) ∧
    parse_file_spec docCafe "n" ⟨10, 0⟩ =
      .ok { filename := "café.pdf", data := [7], metadata := {} } := by
  have hUFempty : ∀ (d : Dict),
      ((dictGet d "UF").bind Object.asString? = none ∨
       (dictGet d "UF").bind Object.asString? = some "") →
      firstNonEmptyStr d ["UF", "F"] = firstNonEmptyStr d ["F"] := by
    intro d h
    rw [firstNonEmptyStr]
    rcases h with h | h
    · rw [h]
    · rw [h]
      rfl
  refine ⟨?_, ?_, ?_, ?_, by decide⟩
  · intro d fb uf huf hne
    rw [best_filename, firstNonEmptyStr, huf]
    dsimp only
    rw [if_neg (fun hc => hne ((String.isEmpty_iff _).mp hc))]
    rfl
  · intro d fb fs hUF hF hne
    rw [best_filename, hUFempty d hUF, firstNonEmptyStr, hF]
    dsimp only
    rw [if_neg (fun hc => hne ((String.isEmpty_iff _).mp hc))]
    rfl
  · intro d fb hUF hF
    rw [best_filename, hUFempty d hUF, firstNonEmptyStr]
    rcases hF with h | h
    · rw [h]
      rfl
    · rw [h]
      rfl
  · intro doc name spec_id spec_dict f hdict hok
    obtain ⟨d', hd', hfn⟩ := parse_file_spec_filename doc name spec_id f hok
    rw [hd'] at hdict
    rw [hfn, Option.some.inj hdict]

/-- Claim C8 witness: a concrete dictionary with a non-empty `/UF` resolves
to that Unicode name. -/
theorem C8_filename_priority_witness :
    best_filename [("UF", .string "café.pdf"), ("F", .string "cafe.pdf")] "n"
      = "café.pdf" :=
  C8_filename_priority.1 [("UF", .string "café.pdf"), ("F", .string "cafe.pdf")]
    "n" "café.pdf" (by decide) (by decide)

/-! ## Claims C5 and C6: XMP conformance detection -/

/-- Modelled from the spec (§4.5): part recognition in the order 3 → 2 → 1,
first match wins, via the attribute/element dual form. -/
def specPart (xmp : String) : Option String :=
  if declaresPart xmp "3" then some "3"
  else if declaresPart xmp "2" then some "2"
  else if declaresPart xmp "1" then some "1"
  else none

/-- Modelled from the spec (§4.5): conformance level from the closed set
`{A, B, U}`, first match in that order, via the dual form. -/
def specLevel (xmp : String) : Option String :=
  if declaresLevel xmp "A" then some "A"
  else if declaresLevel xmp "B" then some "B"
  else if declaresLevel xmp "U" then some "U"
  else none

/-- Modelled from the spec (§4.5): `"PDF/A-<part><LEVEL>"` when both a part
and a level are recognized, none otherwise. -/
def specConformance (xmp : String) : Option String :=
  (specPart xmp).bind fun part =>
    (specLevel xmp).map fun level => "PDF/A-" ++ part ++ level

/-- The source's level loop is the spec's first-match level selection. -/
theorem find_level_eq_specLevel (xmp : String) :
    (["A", "B", "U"].find? fun level =>
        strContains xmp (confAttr level) || strContains xmp (confElem level)) =
      specLevel xmp := by
  rw [specLevel]
  by_cases hA : (strContains xmp (confAttr "A") || strContains xmp (confElem "A")) = true
  · simp [List.find?, hA, declaresLevel]
  · by_cases hB : (strContains xmp (confAttr "B") || strContains xmp (confElem "B")) = true
    · simp [List.find?, hA, hB, declaresLevel]
    · by_cases hU : (strContains xmp (confAttr "U") || strContains xmp (confElem "U")) = true
      · simp [List.find?, hA, hB, hU, declaresLevel]
      · simp [List.find?, hA, hB, hU, declaresLevel]

/-- The source's conformance-level extraction refines the spec's
description. -/
theorem extract_conformance_eq_spec (xmp : String) :
    extract_conformance_level xmp = specConformance xmp := by
  rw [extract_conformance_level, specConformance, specPart,
    find_level_eq_specLevel]
  by_cases h3 : (strContains xmp (partAttr "3") || strContains xmp (partElem "3")) = true
  · simp [h3, declaresPart]
  · by_cases h2 : (strContains xmp (partAttr "2") || strContains xmp (partElem "2")) = true
    · simp [h3, h2, declaresPart]
    · by_cases h1 : (strContains xmp (partAttr "1") || strContains xmp (partElem "1")) = true
      · simp [h3, h2, h1, declaresPart]
      · simp [h3, h2, h1, declaresPart]

/-- When some level of `{A, B, U}` is declared, the spec-side selection
picks a declared level from the set. -/
theorem specLevel_of_declared (xmp lvl : String)
    (hlvl : lvl ∈ (["A", "B", "U"] : List String))
    (hl : declaresLevel xmp lvl = true) :
    ∃ l, l ∈ (["A", "B", "U"] : List String) ∧ declaresLevel xmp l = true ∧
      specLevel xmp = some l := by
  by_cases hA : declaresLevel xmp "A" = true
  · exact ⟨"A", by decide, hA, by rw [specLevel, if_pos hA]⟩
  · by_cases hB : declaresLevel xmp "B" = true
    · exact ⟨"B", by decide, hB, by rw [specLevel, if_neg hA, if_pos hB]⟩
    · by_cases hU : declaresLevel xmp "U" = true
      · exact ⟨"U", by decide, hU,
          by rw [specLevel, if_neg hA, if_neg hB, if_pos hU]⟩
      · exfalso
        have hcases : lvl = "A" ∨ lvl = "B" ∨ lvl = "U" := by simpa using hlvl
        rcases hcases with h | h | h
        · exact hA (h ▸ hl)
        · exact hB (h ▸ hl)
        · exact hU (h ▸ hl)

/-- Claim C5: with strict validation off, `is_pdfa3` returns `Ok` of the
detection result — `true` exactly when the decoded XMP text declares part 3
in attribute or element form AND declares a conformance level from the
closed, case-sensitive set `{A, B, U}` in either form, and `false`
otherwise (never an error). -/
theorem C5_pdfa3_detection (doc : Document) (config : ExtractorConfig)
    (xmp : String)
    (hx : read_xmp_metadata doc = .ok xmp)
    (hstrict : config.strict_pdfa3_validation = false) :
    validate_pdfa3 doc config = .ok (xmp_declares_pdfa3 xmp) ∧
    (xmp_declares_pdfa3 xmp = true ↔
      ((strContains xmp (partAttr "3") = true ∨
        strContains xmp (partElem "3") = true) ∧
       ∃ level, level ∈ (["A", "B", "U"] : List String) ∧
         (strContains xmp (confAttr level) = true ∨
          strContains xmp (confElem level) = true))) := by
  constructor
  · rw [validate_pdfa3, hx]
    dsimp only
    rw [hstrict]
    rfl
  · rw [xmp_declares_pdfa3]
    by_cases h3 : (strContains xmp (partAttr "3") || strContains xmp (partElem "3")) = true
    · simp only [h3, Bool.not_true, Bool.false_eq_true, if_false,
        List.any_eq_true, Bool.or_eq_true]
      constructor
      · rintro ⟨level, hmem, hlev⟩
        exact ⟨Bool.or_eq_true _ _ |>.mp h3, level, hmem, hlev⟩
      · rintro ⟨_, level, hmem, hlev⟩
        exact ⟨level, hmem, hlev⟩
    · have h3' : (strContains xmp (partAttr "3") || strContains xmp (partElem "3")) = false :=
        Bool.not_eq_true _ |>.mp h3
      simp only [h3', Bool.not_false, if_true]
      constructor
      · intro hfalse
        exact absurd hfalse (Bool.false_ne_true)
      · rintro ⟨hor, _⟩
        exact absurd (Bool.or_eq_true _ _ |>.mpr hor) h3

/-- Document whose XMP declares `pdfaid:part="3"` and
`pdfaid:conformance="B"` in attribute form. -/
def docXmp3B : Document :=
  { objects :=
      [ (⟨1,0⟩, .dict [("Metadata", .reference ⟨2,0⟩)]),
        (⟨2,0⟩, .stream [] []
          (some ("pdfaid:part=\"3\" pdfaid:conformance=\"B\"".toList.map
            Char.toNat))) ],
    trailer := [("Root", .reference ⟨1,0⟩)],
    pages := [] }

/-- Claim C5 witness: part 3 + level B in attribute form is detected. -/
theorem C5_pdfa3_detection_witness :
    validate_pdfa3 docXmp3B {} = .ok true :=
  ((C5_pdfa3_detection docXmp3B {} "pdfaid:part=\"3\" pdfaid:conformance=\"B\""
      (by decide) rfl).1).trans (by decide)

/-- Claim C6: `conformance_level` recognizes parts in the order 3 → 2 → 1
(first match wins) and composes `"PDF/A-<part><LEVEL>"`; XMP that does not
declare part 3 but declares part 2 with a valid level yields
`"PDF/A-2<level>"` while `is_pdfa3` (strict off) is `Ok false`. -/
theorem C6_conformance_order (doc : Document) (config : ExtractorConfig)
    (xmp lvl : String)
    (hx : read_xmp_metadata doc = .ok xmp)
    (hstrict : config.strict_pdfa3_validation = false)
    (h3 : declaresPart xmp "3" = false)
    (h2 : declaresPart xmp "2" = true)
    (hlvl : lvl ∈ (["A", "B", "U"] : List String))
    (hl : declaresLevel xmp lvl = true) :
    (∀ s, extract_conformance_level s = specConformance s) ∧
    (∃ l, l ∈ (["A", "B", "U"] : List String) ∧ declaresLevel xmp l = true ∧
       conformance_level doc = some ("PDF/A-2" ++ l)) ∧
    validate_pdfa3 doc config = .ok false := by
  refine ⟨extract_conformance_eq_spec, ?_, ?_⟩
  · obtain ⟨l, hmem, hdecl, hsl⟩ := specLevel_of_declared xmp lvl hlvl hl
    refine ⟨l, hmem, hdecl, ?_⟩
    rw [conformance_level, hx]
    dsimp only
    rw [extract_conformance_eq_spec, specConformance,
      specPart, if_neg (by rw [h3]; exact Bool.false_ne_true), if_pos h2, hsl]
    dsimp only [Option.bind, Option.map]
    rw [show "PDF/A-" ++ "2" = "PDF/A-2" from rfl]
  · rw [validate_pdfa3, hx]
    dsimp only
    rw [hstrict]
    have hfalse : xmp_declares_pdfa3 xmp = false := by
      rw [xmp_declares_pdfa3]
      have h3' : (strContains xmp (partAttr "3") || strContains xmp (partElem "3")) = false := by
        rw [declaresPart] at h3
        exact h3
      rw [h3']
      rfl
    rw [hfalse]
    rfl

/-- Document whose XMP declares `pdfaid:part="2"` and
`pdfaid:conformance="B"` in attribute form. -/
def docXmp2B : Document :=
  { objects :=
      [ (⟨1,0⟩, .dict [("Metadata", .reference ⟨2,0⟩)]),
        (⟨2,0⟩, .stream [] []
          (some ("pdfaid:part=\"2\" pdfaid:conformance=\"B\"".toList.map
            Char.toNat))) ],
    trailer := [("Root", .reference ⟨1,0⟩)],
    pages := [] }

/-- Claim C6 witness: part 2 + level B is never `is_pdfa3`-true. -/
theorem C6_conformance_order_witness :
    validate_pdfa3 docXmp2B {} = .ok false :=
  (C6_conformance_order docXmp2B {}
      "pdfaid:part=\"2\" pdfaid:conformance=\"B\"" "B"
      (by decide) rfl (by decide) (by decide) (by decide) (by decide)).2.2

/-! ## Claim C7: name-tree traversal order and skipping -/

/-- Modelled from the spec (§4.1): consecutive `[name, value]` pairs of the
leaf array, a trailing odd element dropped. -/
def specPairs : List Object → List (Object × Object)
  | a :: b :: rest => (a, b) :: specPairs rest
  | _ => []

/-- Modelled from the spec (§4.1): the well-formed leaf pairs — name slot a
string, value slot a reference — in declared array order; malformed pairs
are skipped, never errored. -/
def specLeafPairs (arr : List Object) : List (String × ObjectId) :=
  (specPairs arr).filterMap fun p =>
    match p.1.asString?, p.2.asReference? with
    | some n, some id => some (n, id)
    | _, _ => none

/-- Modelled from the spec (§4.1): visit exactly the reference kids,
depth-first in `Kids` order, concatenating their emissions; divergence of
any child propagates. -/
def specKidsWalk (w : ObjectId → Option (List (String × ObjectId))) :
    List ObjectId → Option (List (String × ObjectId))
  | [] => some []
  | id :: rest =>
    (w id).bind fun a => (specKidsWalk w rest).map fun b => a ++ b

/-- The source leaf loop emits exactly the spec's well-formed pairs in
order. -/
theorem leafPairs_eq_spec : ∀ arr, leafPairs arr = specLeafPairs arr
  | [] => rfl
  | [_] => rfl
  | a :: b :: rest => by
    have ih := leafPairs_eq_spec rest
    rw [leafPairs, specLeafPairs, specPairs, List.filterMap_cons]
    cases ha : a.asString? <;> cases hb : b.asReference? <;>
      simp [ha, hb, ih, specLeafPairs]

/-- The source kid loop visits exactly the reference kids, in order. -/
theorem walkKidsWith_eq_spec
    (w : ObjectId → Option (List (String × ObjectId))) :
    ∀ kids : List Object,
      walkKidsWith w kids = specKidsWalk w (kids.filterMap Object.asReference?)
  | [] => rfl
  | kid :: rest => by
    have ih := walkKidsWith_eq_spec w rest
    rw [walkKidsWith, List.filterMap_cons]
    cases hr : kid.asReference? with
    | none => exact ih
    | some kid_id =>
      dsimp only
      rw [specKidsWalk, ih]

/-- Claim C7: for every name-tree node, leaf pairs are emitted in declared
array order with malformed pairs (trailing odd name, non-string name slot,
non-reference value slot) silently skipped, and the kids that are
references are visited depth-first in `Kids` order, their emissions
appended after the node's leaf pairs. -/
theorem C7_tree_order :
    (∀ arr, leafPairs arr = specLeafPairs arr) ∧
    (∀ (w : ObjectId → Option (List (String × ObjectId))) (kids : List Object),
       walkKidsWith w kids =
         specKidsWalk w (kids.filterMap Object.asReference?)) ∧
    (∀ (doc : Document) (fuel : Nat) (node_id : ObjectId) (node_dict : Dict)
       (arr kids : List Object),
       (doc.getObject node_id).bind Object.asDict? = some node_dict →
       (dictGet node_dict "Names").bind Object.asArray? = some arr →
       (dictGet node_dict "Kids").bind Object.asArray? = some kids →
       walk_name_tree doc (fuel + 1) node_id =
         (specKidsWalk (walk_name_tree doc fuel)
             (kids.filterMap Object.asReference?)).map
           fun rest => specLeafPairs arr ++ rest) := by
  refine ⟨leafPairs_eq_spec, walkKidsWith_eq_spec, ?_⟩
  intro doc fuel node_id node_dict arr kids h1 h2 h3
  rw [walk_name_tree, h1]
  dsimp only
  rw [h2, h3]
  dsimp only
  rw [leafPairs_eq_spec arr, walkKidsWith_eq_spec (walk_name_tree doc fuel) kids]

/-- A two-level name tree with malformed leaf entries: a non-reference
value, a non-string name slot, a trailing odd name, and a non-reference
kid. -/
def docNested : Document :=
  { objects :=
      [ (⟨1,0⟩, .dict
          [("Names", .array
             [.string "r", .reference ⟨30,0⟩,
              .string "x", .integer 5,
              .integer 9, .reference ⟨40,0⟩,
              .string "odd"]),
           ("Kids", .array [.reference ⟨2,0⟩, .integer 7])]),
        (⟨2,0⟩, .dict [("Names", .array [.string "k", .reference ⟨31,0⟩])]) ],
    trailer := [], pages := [] }

/-- Claim C7 witness: on the malformed two-level tree, only the two
well-formed pairs are emitted, parent's leaf entries first, then the
reference kid's, in order. -/
theorem C7_tree_order_witness :
    walk_name_tree docNested 2 ⟨1, 0⟩ =
      some [("r", ⟨30, 0⟩), ("k", ⟨31, 0⟩)] :=
  (C7_tree_order.2.2 docNested 1 ⟨1, 0⟩
      [("Names", .array
         [.string "r", .reference ⟨30,0⟩,
          .string "x", .integer 5,
          .integer 9, .reference ⟨40,0⟩,
          .string "odd"]),
       ("Kids", .array [.reference ⟨2,0⟩, .integer 7])]
      [.string "r", .reference ⟨30,0⟩,
       .string "x", .integer 5,
       .integer 9, .reference ⟨40,0⟩,
       .string "odd"]
      [.reference ⟨2,0⟩, .integer 7]
      rfl rfl rfl).trans (by decide)

/-! ## Claim C9: structural validator -/

/-- Claim C9: `validate_pdf_structure` checks catalog, then pages, then
trailer; the first failing condition fixes the `InvalidPdf` message, and
success is always `Ok true` — no run returns `Ok false`. -/
theorem C9_structure_checks (doc : Document) :
    (validate_pdf_structure doc = .ok true ↔
       doc.catalog.isSome = true ∧ doc.pages ≠ [] ∧ doc.trailer ≠ []) ∧
    (∀ b, validate_pdf_structure doc = .ok b → b = true) ∧
    (doc.catalog = none →
       validate_pdf_structure doc =
         .error (.invalidPdf "missing or invalid catalog")) ∧
    (doc.catalog.isSome = true → doc.pages = [] →
       validate_pdf_structure doc =
         .error (.invalidPdf "document has no pages")) ∧
    (doc.catalog.isSome = true → doc.pages ≠ [] → doc.trailer = [] →
       validate_pdf_structure doc =
         .error (.invalidPdf "missing trailer dictionary")) := by
  cases hc : doc.catalog with
  | none =>
    have hval : validate_pdf_structure doc =
        .error (.invalidPdf "missing or invalid catalog") := by
      rw [validate_pdf_structure, hc]
    exact ⟨⟨fun h => absurd (hval.symm.trans h) (fun hh => Except.noConfusion hh),
        fun h => absurd h.1 (by decide)⟩,
      fun b hb => absurd (hval.symm.trans hb) (fun hh => Except.noConfusion hh),
      fun _ => hval,
      fun h _ => absurd h (by decide),
      fun h _ _ => absurd h (by decide)⟩
  | some c =>
    by_cases hp : doc.pages = []
    · have hpe : doc.pages.isEmpty = true := by rw [hp]; rfl
      have hval : validate_pdf_structure doc =
          .error (.invalidPdf "document has no pages") := by
        rw [validate_pdf_structure, hc, hpe]
        rfl
      exact ⟨⟨fun h => absurd (hval.symm.trans h) (fun hh => Except.noConfusion hh),
          fun h => absurd hp h.2.1⟩,
        fun b hb => absurd (hval.symm.trans hb) (fun hh => Except.noConfusion hh),
        fun h => absurd h (fun hh => Option.noConfusion hh),
        fun _ _ => hval,
        fun _ hne _ => absurd hp hne⟩
    · have hpe : doc.pages.isEmpty = false := by
        cases hpl : doc.pages with
        | nil => exact absurd hpl hp
        | cons a b => rfl
      by_cases ht : doc.trailer = []
      · have hte : doc.trailer.isEmpty = true := by rw [ht]; rfl
        have hval : validate_pdf_structure doc =
            .error (.invalidPdf "missing trailer dictionary") := by
          rw [validate_pdf_structure, hc, hpe, hte]
          rfl
        exact ⟨⟨fun h => absurd (hval.symm.trans h) (fun hh => Except.noConfusion hh),
            fun h => absurd ht h.2.2⟩,
          fun b hb => absurd (hval.symm.trans hb) (fun hh => Except.noConfusion hh),
          fun h => absurd h (fun hh => Option.noConfusion hh),
          fun _ hp' => absurd hp' hp,
          fun _ _ _ => hval⟩
      · have hte : doc.trailer.isEmpty = false := by
          cases htl : doc.trailer with
          | nil => exact absurd htl ht
          | cons a b => rfl
        have hval : validate_pdf_structure doc = .ok true := by
          rw [validate_pdf_structure, hc, hpe, hte]
          rfl
        exact ⟨⟨fun _ => ⟨rfl, hp, ht⟩, fun _ => hval⟩,
          fun b hb => (Except.ok.inj (hval.symm.trans hb)).symm,
          fun h => absurd h (fun hh => Option.noConfusion hh),
          fun _ hp' => absurd hp' hp,
          fun _ _ ht' => absurd ht' ht⟩

/-- A minimal structurally valid document. -/
def docValid : Document :=
  { objects := [ (⟨1,0⟩, .dict [("Type", .name "Catalog")]) ],
    trailer := [("Root", .reference ⟨1,0⟩)],
    pages := [⟨3,0⟩] }

/-- Claim C9 witness: the minimal valid document validates to `Ok true`. -/
theorem C9_structure_checks_witness :
    validate_pdf_structure docValid = .ok true :=
  (C9_structure_checks docValid).1.mpr
    ⟨rfl, List.cons_ne_nil _ _, List.cons_ne_nil _ _⟩

/-! ## Claim C10: counting counts raw discovery entries -/

/-- Three discovery entries: two sharing one resolvable reference and one
whose reference does not resolve. -/
def docDupAndBad : Document :=
  { objects :=
      [ (⟨1,0⟩, .dict [("Names", .dict [("EmbeddedFiles", .dict [("Names",
          .array [.string "a", .reference ⟨10,0⟩,
                  .string "a2", .reference ⟨10,0⟩,
                  .string "bad", .reference ⟨99,0⟩])])])]),
        (⟨10,0⟩, .dict [("EF", .dict [("F", .reference ⟨20,0⟩)])]),
        (⟨20,0⟩, .stream [] [7] (some [7])) ],
    trailer := [("Root", .reference ⟨1,0⟩)],
    pages := [] }

/-- Claim C10: `count_embedded_files` counts the raw discovered entries —
duplicates and entries that later fail to resolve included — so a document
can have `has_embedded_files = true` and a positive count while
`extract_embedded_files` fails with `NoEmbeddedFiles`, and the count can
strictly exceed the length of a successful extraction. -/
theorem C10_count_raw_entries :
    (∀ (doc : Document) (fuel : Nat) (specs : List (String × ObjectId)),
       collect_file_specs doc fuel = some specs →
       count_embedded_files doc fuel = some specs.length ∧
       has_embedded_files doc fuel = some (!specs.isEmpty)) ∧
    (has_embedded_files docUnresolvable 1 = some true ∧
     count_embedded_files docUnresolvable 1 = some 1 ∧
     extract_embedded_files docUnresolvable {} 1 =
       some (.error .noEmbeddedFiles)) ∧
    (count_embedded_files docDupAndBad 1 = some 3 ∧
     ∃ files, extract_embedded_files docDupAndBad {} 1 = some (.ok files) ∧
       files.length = 2 ∧ 2 < 3) := by
  refine ⟨fun doc fuel specs h => ⟨?_, ?_⟩, by decide, by decide, ?_⟩
  · rw [count_embedded_files, h]
    rfl
  · rw [has_embedded_files, h]
    rfl
  · exact ⟨[⟨"a", [7], {}⟩, ⟨"a2", [7], {}⟩], by decide, by decide, by decide⟩

/-- Claim C10 witness: the duplicate-and-failing document counts three raw
entries. -/
theorem C10_count_raw_entries_witness :
    count_embedded_files docDupAndBad 1 =
      some ([("a", (⟨10, 0⟩ : ObjectId)), ("a2", ⟨10, 0⟩),
             ("bad", ⟨99, 0⟩)].length) :=
  (C10_count_raw_entries.1 docDupAndBad 1
      [("a", ⟨10, 0⟩), ("a2", ⟨10, 0⟩), ("bad", ⟨99, 0⟩)] (by decide)).1

end ExtractPdf
